import Mathlib

/-!
Verification of the `ImagePerturbEnv` reinforcement-learning environment from
`src/env.py` of the `adv_rl` repository, together with the endless data-loader
contract of the specification.

The environment is embedded shallowly:

* an image tensor of shape `[1, C, H, W]` (the batch dimension is always 1 and
  is dropped) becomes a function `ℕ → ℕ → ℕ → ℚ` giving the pixel value at
  `(channel, row, col)`; the shape itself is carried separately in the
  environment state, mirroring `self.image_shape`;
* the frozen classifier `self.model` becomes an abstract function from images
  to real-valued logits, with its output width carried as `numClasses`;
* the dataloader iterator becomes an infinite stream `ℕ → PerturbImage × ℕ`
  of (image, label) pairs together with a cursor;
* the float arithmetic of the reward is modelled over the reals
  (`Real.exp` for `np.exp`, exact softmax for `F.softmax`).
-/

set_option autoImplicit false

namespace AdvRL

/-- An image: pixel value at (channel, row, col).  Pixel intensities are
modelled as rationals so that pixel comparisons (used by the sparsity count)
stay decidable. -/
def PerturbImage : Type := ℕ → ℕ → ℕ → ℚ

/-- The state of `ImagePerturbEnv` (`src/env.py`, lines 40-67).  The
dataloader iterator is modelled as the stream of pairs it will yield together
with a cursor pointing at the next element; `image_shape = [1, C, H, W]` is
modelled by the three fields `shapeC`, `shapeH`, `shapeW`. -/
structure EnvState where
  stream : ℕ → PerturbImage × ℕ
  cursor : ℕ
  model : PerturbImage → ℕ → ℝ
  numClasses : ℕ
  image : PerturbImage
  target_class : ℕ
  original_image : PerturbImage
  shapeC : ℕ
  shapeH : ℕ
  shapeW : ℕ
  attack_budget : ℕ
  lambda_ : ℚ
  current_attack_count : ℕ

/-- Total number of actions, `self.image_shape[1] * self.image_shape[2] *
self.image_shape[3]` (`src/env.py`, line 56); also the size of the discrete
action space. -/
def total_actions (s : EnvState) : ℕ :=
  s.shapeC * s.shapeH * s.shapeW

/-- Action decoding of `src/env.py`, lines 89-92:
`channel, temp = divmod(action, H*W)`; `x, y = divmod(temp, W)`. -/
def decodeAction (shapeH shapeW action : ℕ) : ℕ × ℕ × ℕ :=
  let channel := action / (shapeH * shapeW)
  let temp := action % (shapeH * shapeW)
  let x := temp / shapeW
  let y := temp % shapeW
  (channel, x, y)

/-- The in-place pixel write `perturbed_image[0, channel, x, y] = 0`
(`src/env.py`, line 93) applied to a cloned image. -/
def setPixelZero (img : PerturbImage) (c x y : ℕ) : PerturbImage :=
  fun c' x' y' => if c' = c ∧ x' = x ∧ y' = y then 0 else img c' x' y'

/-- Lines 87-93 of `src/env.py`: clone the current image, decode the action
and zero the selected pixel. -/
def perturb (shapeH shapeW : ℕ) (img : PerturbImage) (action : ℕ) : PerturbImage :=
  let d := decodeAction shapeH shapeW action
  setPixelZero img d.1 d.2.1 d.2.2

/-- The sparsity term `torch.nonzero(perturbed_image - original_image).size(0)`
(`src/env.py`, line 123): the number of positions of the `C × H × W` tensor at
which the difference of the two images is nonzero. -/
def sparsityCount (shapeC shapeH shapeW : ℕ) (original perturbed : PerturbImage) : ℕ :=
  ((Finset.range shapeC ×ˢ Finset.range shapeH ×ˢ Finset.range shapeW).filter
    (fun p => perturbed p.1 p.2.1 p.2.2 - original p.1 p.2.1 p.2.2 ≠ 0)).card

/-- The probability `F.softmax(output, dim=1)[0][target].item()` assigned to
class `target` by logits over `numClasses` classes (`src/env.py`, lines
118 and 121). -/
noncomputable def softmaxProb (logits : ℕ → ℝ) (numClasses target : ℕ) : ℝ :=
  Real.exp (logits target) / ∑ j ∈ Finset.range numClasses, Real.exp (logits j)

/-- `ImagePerturbEnv.compute_reward` (`src/env.py`, lines 106-126):
`reward = (original_prob - perturbed_prob) * np.exp(-self.lambda_ * sparsity)`. -/
noncomputable def compute_reward (s : EnvState) (original_image perturbed_image : PerturbImage) : ℝ :=
  let original_prob := softmaxProb (s.model original_image) s.numClasses s.target_class
  let perturbed_prob := softmaxProb (s.model perturbed_image) s.numClasses s.target_class
  let sparsity := sparsityCount s.shapeC s.shapeH s.shapeW original_image perturbed_image
  (original_prob - perturbed_prob) * Real.exp (-(s.lambda_ : ℝ) * (sparsity : ℝ))

/-- `ImagePerturbEnv.reset` (`src/env.py`, lines 128-139): draw the next
(image, label) pair, snapshot it as the original image, zero the step counter
and return the new image. -/
def reset (s : EnvState) : EnvState × PerturbImage :=
  let p := s.stream s.cursor
  ({ s with cursor := s.cursor + 1,
            image := p.1,
            target_class := p.2,
            original_image := p.1,
            current_attack_count := 0 }, p.1)

/-- `ImagePerturbEnv.step` (`src/env.py`, lines 69-104), in the source's exact
order: increment the counter, clone and perturb the image, compute the reward
against the held (previous-step) image, test the budget, perform the internal
reset when done, and only then overwrite the held image with the perturbed
one before returning `(perturbed_image, reward, done, info)`. -/
noncomputable def step (s : EnvState) (action : ℕ) : EnvState × PerturbImage × ℝ × Bool :=
  let s1 : EnvState := { s with current_attack_count := s.current_attack_count + 1 }
  let perturbed : PerturbImage := perturb s1.shapeH s1.shapeW s1.image action
  let reward : ℝ := compute_reward s1 s1.image perturbed
  let done : Bool := decide (s1.current_attack_count ≥ s1.attack_budget)
  let s2 : EnvState := if done then (reset s1).1 else s1
  ({ s2 with image := perturbed }, perturbed, reward, done)

/-- `ImagePerturbEnv.__init__` (`src/env.py`, lines 40-67): draw the first
(image, label) pair, snapshot it, record the image shape and start with a zero
step counter.  The shape is passed explicitly because functional images carry
no intrinsic shape (in the source it is read off the first tensor). -/
noncomputable def init (stream : ℕ → PerturbImage × ℕ) (model : PerturbImage → ℕ → ℝ)
    (numClasses shapeC shapeH shapeW attack_budget : ℕ) (lambda_ : ℚ) : EnvState :=
  let p := stream 0
  { stream := stream,
    cursor := 1,
    model := model,
    numClasses := numClasses,
    image := p.1,
    target_class := p.2,
    original_image := p.1,
    shapeC := shapeC,
    shapeH := shapeH,
    shapeW := shapeW,
    attack_budget := attack_budget,
    lambda_ := lambda_,
    current_attack_count := 0 }

/-- Pytorch-style integer indexing into a dimension of extent `size`: an
index `i` with `0 ≤ i < size` resolves to itself, a negative index with
`-size ≤ i < 0` wraps around to `i + size`, and anything else is an
out-of-bounds indexing error (`IndexError`), modelled as `none`. -/
def torchIndex (size : ℕ) (i : ℤ) : Option ℕ :=
  if 0 ≤ i ∧ i < (size : ℤ) then some i.toNat
  else if -(size : ℤ) ≤ i ∧ i < 0 then some (i + size).toNat
  else none

/-- `ImagePerturbEnv.step` on an arbitrary integer action, modelling the
Python/pytorch semantics of `src/env.py`, lines 85-104, exactly: the counter
is incremented first; `divmod` is floor division (`Int.fdiv` / `Int.fmod`);
the write `perturbed_image[0, channel, x, y] = 0` resolves each index with
pytorch wraparound and raises (result `none`) when an index is out of bounds,
leaving the environment with only the counter modified. -/
noncomputable def stepZ (s : EnvState) (action : ℤ) : EnvState × Option (PerturbImage × ℝ × Bool) :=
  let s1 : EnvState := { s with current_attack_count := s.current_attack_count + 1 }
  let channel := Int.fdiv action ((s1.shapeH : ℤ) * (s1.shapeW : ℤ))
  let temp := Int.fmod action ((s1.shapeH : ℤ) * (s1.shapeW : ℤ))
  let x := Int.fdiv temp (s1.shapeW : ℤ)
  let y := Int.fmod temp (s1.shapeW : ℤ)
  match torchIndex s1.shapeC channel, torchIndex s1.shapeH x, torchIndex s1.shapeW y with
  | some c0, some x0, some y0 =>
    let perturbed : PerturbImage := setPixelZero s1.image c0 x0 y0
    let reward : ℝ := compute_reward s1 s1.image perturbed
    let done : Bool := decide (s1.current_attack_count ≥ s1.attack_budget)
    let s2 : EnvState := if done then (reset s1).1 else s1
    ({ s2 with image := perturbed }, some (perturbed, reward, done))
  | _, _, _ => (s1, none)

/-- State after `n` successive `step` calls with actions `acts 0`, `acts 1`,
..., `acts (n-1)`. -/
noncomputable def runSteps (s : EnvState) (acts : ℕ → ℕ) : ℕ → EnvState
  | 0 => s
  | n + 1 => (step (runSteps s acts n) (acts n)).1

/-- The error raised by the endless loader when its underlying dataset is
empty. -/
structure EmptyDatasetError where

/-- Modelled from the spec: the repository's `EndlessDataLoader`
(`src/utils.py`, imported by `src/train.py` but absent from the snapshot)
wraps a finite dataset as an endless stream.  Per spec section 4.1, `next()`
returns the next (image, label) pair and never raises end-of-sequence,
transparently restarting iteration when the underlying finite source is
exhausted; if the underlying dataset is empty, `next()` fails with an
`EmptyDatasetError` on the first call.  The iterator position is an explicit
cursor; restarting is cursor arithmetic modulo the dataset length. -/
def endlessNext (data : List (PerturbImage × ℕ)) (cursor : ℕ) :
    Except EmptyDatasetError ((PerturbImage × ℕ) × ℕ) :=
  if h : data.length = 0 then Except.error ⟨⟩
  else Except.ok (data.get ⟨cursor % data.length, Nat.mod_lt _ (Nat.pos_of_ne_zero h)⟩,
    cursor + 1)

/-- The constant image with every pixel equal to `q`. -/
def constImage (q : ℚ) : PerturbImage := fun _ _ _ => q

/-- A concrete dataloader stream: the `n`-th pair is the constant image of
value `n + 1` with label `n`, so successive draws are distinguishable at any
pixel. -/
def demoStream : ℕ → PerturbImage × ℕ := fun n => (constImage ((n : ℚ) + 1), n)

/-- A concrete dataloader stream every image of which is the all-zero image. -/
def zeroStream : ℕ → PerturbImage × ℕ := fun n => (constImage 0, n)

/-- A concrete classifier assigning logit 0 to every class. -/
noncomputable def demoModel : PerturbImage → ℕ → ℝ := fun _ _ => 0

/-- A concrete environment over 1 × 1 × 1 images with `attack_budget = 1`:
the first `step` call ends the episode. -/
noncomputable def demoEnv : EnvState :=
  init demoStream demoModel 10 1 1 1 1 1

/-- A concrete environment over 1 × 1 × 1 images with `attack_budget = 2`. -/
noncomputable def demoEnvB2 : EnvState :=
  init demoStream demoModel 10 1 1 1 2 1

/-- A concrete environment whose current image is all-zero, so the pixel
selected by any action is already 0 before the perturbation. -/
noncomputable def envZero : EnvState :=
  init zeroStream demoModel 10 1 1 1 5 1

/-! ### Helper lemmas shared by the claim theorems -/

/-- A step never changes the attack budget. -/
theorem step_fst_attack_budget (s : EnvState) (a : ℕ) :
    (step s a).1.attack_budget = s.attack_budget := by
  unfold step reset
  dsimp only
  split <;> rfl

/-- The step counter after a step: reset to 0 when the incremented counter
reaches the budget, the incremented counter otherwise. -/
theorem step_fst_count (s : EnvState) (a : ℕ) :
    (step s a).1.current_attack_count =
      if s.attack_budget ≤ s.current_attack_count + 1 then 0
      else s.current_attack_count + 1 := by
  unfold step reset
  by_cases h : s.attack_budget ≤ s.current_attack_count + 1
  · simp [h]
  · simp [h]

/-- The done flag returned by a step. -/
theorem step_done_flag (s : EnvState) (a : ℕ) :
    (step s a).2.2.2 = decide (s.attack_budget ≤ s.current_attack_count + 1) := rfl

/-- Iterated stepping never changes the attack budget. -/
theorem runSteps_attack_budget (s : EnvState) (acts : ℕ → ℕ) (n : ℕ) :
    (runSteps s acts n).attack_budget = s.attack_budget := by
  induction n with
  | zero => rfl
  | succ n ih => rw [runSteps, step_fst_attack_budget, ih]

/-- Within an episode (fewer steps than the budget, starting from a zero
counter) the step counter simply counts the steps taken. -/
theorem runSteps_count (s : EnvState) (acts : ℕ → ℕ)
    (hc : s.current_attack_count = 0) (n : ℕ) (hn : n < s.attack_budget) :
    (runSteps s acts n).current_attack_count = n := by
  induction n with
  | zero => simpa [runSteps] using hc
  | succ n ih =>
    rw [runSteps, step_fst_count, runSteps_attack_budget,
      ih (Nat.lt_of_succ_lt hn), if_neg (by omega)]

/-! ### Claim theorems -/

/-- C1: the claim states that after a `step` call returning `done = true` the
environment's held current image is the freshly drawn image from the Image
Source.  The code contradicts this: `step` executes `self.image =
perturbed_image` *after* `self.reset()`, so at the failing input (budget 1,
1 × 1 × 1 images, stream yielding the constant image `n + 1` with label `n`,
action 0) the first call returns `done = true`, yet the held image is the
ended episode's perturbed image (pixel value 0) and differs from the freshly
drawn image `stream 1` (pixel value 2). -/
theorem stepDoneKeepsPerturbedImage :
    (step demoEnv 0).2.2.2 = true ∧
    (step demoEnv 0).1.image = perturb demoEnv.shapeH demoEnv.shapeW demoEnv.image 0 ∧
    (step demoEnv 0).1.image 0 0 0 ≠ (demoEnv.stream 1).1 0 0 0 := by
  refine ⟨rfl, rfl, ?_⟩
  norm_num [step, demoEnv, init, demoStream, constImage, perturb, setPixelZero,
    decodeAction, reset]

/-- C2: the claim states that the held target class is always the label the
Image Source yielded together with the currently held image.  At the failing
input (the same budget-1 environment as C1) the `done` step's internal reset
installs the new pair's label, but the subsequent `self.image =
perturbed_image` overwrites the new image with the old episode's perturbed
image: afterwards `target_class` is the label of `stream 1` while the held
image still has the old perturbed pixel value 0 where `stream 1`'s image has
value 2, so image and target class are no longer a pair from the source. -/
theorem stepDoneBreaksAtomicity :
    (step demoEnv 0).2.2.2 = true ∧
    (step demoEnv 0).1.target_class = (demoEnv.stream 1).2 ∧
    (step demoEnv 0).1.image 0 0 0 ≠ (demoEnv.stream 1).1 0 0 0 := by
  refine ⟨rfl, rfl, ?_⟩
  norm_num [step, demoEnv, init, demoStream, constImage, perturb, setPixelZero,
    decodeAction, reset]

/-- C3: for every action in the action space, the reward returned by `step`
equals `(p_before - p_after) * exp(-lambda * sparsity)`, where `p_before` and
`p_after` are the softmax probabilities of the target class for the held
(previous-step) image `s.image` — not the episode's `original_image` — and
for the perturbed image, and `sparsity` counts the pixel positions at which
the two images differ. -/
theorem stepRewardFormula (s : EnvState) (a : ℕ) (_ha : a < total_actions s) :
    (step s a).2.2.1 =
      (softmaxProb (s.model s.image) s.numClasses s.target_class -
        softmaxProb (s.model (perturb s.shapeH s.shapeW s.image a)) s.numClasses
          s.target_class) *
      Real.exp (-(s.lambda_ : ℝ) *
        (sparsityCount s.shapeC s.shapeH s.shapeW s.image
          (perturb s.shapeH s.shapeW s.image a) : ℝ)) := rfl

/-- Witness for C3 at the concrete environment `demoEnv` and action 0. -/
theorem stepRewardFormulaWitness :
    0 < total_actions demoEnv ∧
    (step demoEnv 0).2.2.1 =
      (softmaxProb (demoEnv.model demoEnv.image) demoEnv.numClasses demoEnv.target_class -
        softmaxProb (demoEnv.model (perturb demoEnv.shapeH demoEnv.shapeW demoEnv.image 0))
          demoEnv.numClasses demoEnv.target_class) *
      Real.exp (-(demoEnv.lambda_ : ℝ) *
        (sparsityCount demoEnv.shapeC demoEnv.shapeH demoEnv.shapeW demoEnv.image
          (perturb demoEnv.shapeH demoEnv.shapeW demoEnv.image 0) : ℝ)) :=
  ⟨by decide, stepRewardFormula demoEnv 0 (by decide)⟩

/-- C6: for every action `a < C * H * W`, the `divmod` decoding of
`src/env.py` yields in-bounds coordinates, and re-encoding them by
`channel * (H * W) + row * W + col` recovers `a` exactly. -/
theorem decodeEncodeRoundTrip (shapeC shapeH shapeW a : ℕ)
    (ha : a < shapeC * shapeH * shapeW) :
    (decodeAction shapeH shapeW a).1 < shapeC ∧
    (decodeAction shapeH shapeW a).2.1 < shapeH ∧
    (decodeAction shapeH shapeW a).2.2 < shapeW ∧
    (decodeAction shapeH shapeW a).1 * (shapeH * shapeW) +
      (decodeAction shapeH shapeW a).2.1 * shapeW +
      (decodeAction shapeH shapeW a).2.2 = a := by
  have hW : 0 < shapeW := by
    rcases Nat.eq_zero_or_pos shapeW with h | h
    · subst h; simp at ha
    · exact h
  have hHW : 0 < shapeH * shapeW := by
    rcases Nat.eq_zero_or_pos (shapeH * shapeW) with h | h
    · exfalso
      have hz : shapeC * shapeH * shapeW = 0 := by
        rw [Nat.mul_assoc, h, Nat.mul_zero]
      omega
    · exact h
  have e1 : (decodeAction shapeH shapeW a).1 = a / (shapeH * shapeW) := rfl
  have e2 : (decodeAction shapeH shapeW a).2.1 = a % (shapeH * shapeW) / shapeW := rfl
  have e3 : (decodeAction shapeH shapeW a).2.2 = a % (shapeH * shapeW) % shapeW := rfl
  rw [e1, e2, e3]
  refine ⟨?_, ?_, ?_, ?_⟩
  · rw [Nat.div_lt_iff_lt_mul hHW]
    calc a < shapeC * shapeH * shapeW := ha
    _ = shapeC * (shapeH * shapeW) := by ring
  · rw [Nat.div_lt_iff_lt_mul hW]
    exact Nat.mod_lt _ hHW
  · exact Nat.mod_lt _ hW
  · have h1 := Nat.div_add_mod a (shapeH * shapeW)
    have h2 := Nat.div_add_mod (a % (shapeH * shapeW)) shapeW
    have hc1 : a / (shapeH * shapeW) * (shapeH * shapeW) =
        (shapeH * shapeW) * (a / (shapeH * shapeW)) := Nat.mul_comm _ _
    have hc2 : a % (shapeH * shapeW) / shapeW * shapeW =
        shapeW * (a % (shapeH * shapeW) / shapeW) := Nat.mul_comm _ _
    omega

/-- Witness for C6 at `C = 3`, `H = 4`, `W = 5`, `a = 37`. -/
theorem decodeEncodeRoundTripWitness :
    37 < 3 * 4 * 5 ∧
    ((decodeAction 4 5 37).1 < 3 ∧
     (decodeAction 4 5 37).2.1 < 4 ∧
     (decodeAction 4 5 37).2.2 < 5 ∧
     (decodeAction 4 5 37).1 * (4 * 5) + (decodeAction 4 5 37).2.1 * 5 +
       (decodeAction 4 5 37).2.2 = 37) :=
  ⟨by decide, decodeEncodeRoundTrip 3 4 5 37 (by decide)⟩

/-- C8: the reward is a well-defined real number, and when the perturbed
image equals the pre-step image the sparsity count is 0, the exponential
factor equals 1, and the reward collapses to `p_before - p_after`, which is 0
because both probabilities come from the same image under the same frozen
classifier. -/
theorem rewardZeroOnIdenticalImage (s : EnvState) :
    sparsityCount s.shapeC s.shapeH s.shapeW s.image s.image = 0 ∧
    Real.exp (-(s.lambda_ : ℝ) *
      (sparsityCount s.shapeC s.shapeH s.shapeW s.image s.image : ℝ)) = 1 ∧
    compute_reward s s.image s.image = 0 := by
  have h0 : sparsityCount s.shapeC s.shapeH s.shapeW s.image s.image = 0 := by
    unfold sparsityCount
    rw [Finset.card_eq_zero, Finset.filter_eq_empty_iff]
    intro p _
    simp
  refine ⟨h0, ?_, ?_⟩
  · rw [h0]
    norm_num
  · unfold compute_reward
    simp

/-- C9: a step that does not end the episode (incremented counter still
strictly below the budget) changes only the held image and the step counter;
every other component of the environment state — the original-image
snapshot, the target class, the attack budget, the lambda coefficient, the
shape (hence the action and observation spaces), the classifier and the
dataloader position — is unchanged. -/
theorem stepFrameCondition (s : EnvState) (a : ℕ)
    (h : s.current_attack_count + 1 < s.attack_budget) :
    (step s a).1 = { s with image := perturb s.shapeH s.shapeW s.image a,
                            current_attack_count := s.current_attack_count + 1 } := by
  unfold step
  dsimp only
  rw [if_neg (by simp; omega)]

/-- Witness for C9 at the concrete environment `demoEnvB2` (budget 2, counter
0) and action 0. -/
theorem stepFrameConditionWitness :
    demoEnvB2.current_attack_count + 1 < demoEnvB2.attack_budget ∧
    (step demoEnvB2 0).1 =
      { demoEnvB2 with
          image := perturb demoEnvB2.shapeH demoEnvB2.shapeW demoEnvB2.image 0,
          current_attack_count := demoEnvB2.current_attack_count + 1 } :=
  ⟨by decide, stepFrameCondition demoEnvB2 0 (by decide)⟩

/-- C4 (counterexample): the claim demands that the image returned by `step`
differ from the pre-step image at exactly one pixel position — the decoded
triple.  At the concrete environment `envZero` (1 × 1 × 1 all-zero image)
with action 0, the decoded triple is (0, 0, 0) but the targeted pixel is
already 0, so the returned image differs from the pre-step image at no
position at all: the sparsity count is 0, not 1. -/
theorem stepSinglePixelDiffCounterexample :
    decodeAction envZero.shapeH envZero.shapeW 0 = (0, 0, 0) ∧
    (step envZero 0).2.1 0 0 0 = envZero.image 0 0 0 ∧
    sparsityCount envZero.shapeC envZero.shapeH envZero.shapeW envZero.image
      ((step envZero 0).2.1) = 0 ∧
    sparsityCount envZero.shapeC envZero.shapeH envZero.shapeW envZero.image
      ((step envZero 0).2.1) ≠ 1 := by
  have h : ∀ c x y, (step envZero 0).2.1 c x y = envZero.image c x y := by
    intro c x y
    show setPixelZero envZero.image 0 0 0 c x y = envZero.image c x y
    unfold setPixelZero
    split
    · show (0 : ℚ) = envZero.image c x y
      rfl
    · rfl
  have h0 : sparsityCount envZero.shapeC envZero.shapeH envZero.shapeW envZero.image
      ((step envZero 0).2.1) = 0 := by
    unfold sparsityCount
    rw [Finset.card_eq_zero, Finset.filter_eq_empty_iff]
    intro p _
    rw [h]
    simp
  exact ⟨rfl, h 0 0 0, h0, by rw [h0]; omega⟩

/-- C4 (amended): for every action `a < C * H * W`, the image returned by
`step` has value 0 at the decoded (channel, row, col) triple and agrees with
the pre-step image everywhere else; consequently it differs from the
pre-step image at a position exactly when that position is the decoded
triple and the pre-step value there is nonzero (so there is exactly one
differing position when the targeted pixel was nonzero, and none when it was
already 0). -/
theorem stepPerturbsAtMostDecodedPixel (s : EnvState) (a : ℕ)
    (_ha : a < total_actions s) :
    (step s a).2.1 (decodeAction s.shapeH s.shapeW a).1
      (decodeAction s.shapeH s.shapeW a).2.1 (decodeAction s.shapeH s.shapeW a).2.2 = 0 ∧
    ∀ c x y, ((step s a).2.1 c x y ≠ s.image c x y ↔
      ((c, x, y) = decodeAction s.shapeH s.shapeW a ∧ s.image c x y ≠ 0)) := by
  have hobs : (step s a).2.1 = setPixelZero s.image (decodeAction s.shapeH s.shapeW a).1
      (decodeAction s.shapeH s.shapeW a).2.1 (decodeAction s.shapeH s.shapeW a).2.2 := rfl
  rw [hobs]
  constructor
  · unfold setPixelZero
    simp
  · intro c x y
    unfold setPixelZero
    by_cases hcxy : c = (decodeAction s.shapeH s.shapeW a).1 ∧
        x = (decodeAction s.shapeH s.shapeW a).2.1 ∧
        y = (decodeAction s.shapeH s.shapeW a).2.2
    · obtain ⟨h1, h2, h3⟩ := hcxy
      subst h1; subst h2; subst h3
      rw [if_pos ⟨rfl, rfl, rfl⟩]
      simp [Prod.ext_iff, ne_comm]
    · rw [if_neg hcxy]
      simp [Prod.ext_iff, hcxy]

/-- Witness for C4's amended theorem at the concrete environment `demoEnv`
and action 0: the only candidate differing position is the decoded (0,0,0),
where the pre-step value 1 is nonzero. -/
theorem stepPerturbsAtMostDecodedPixelWitness :
    0 < total_actions demoEnv ∧
    ((step demoEnv 0).2.1 (decodeAction demoEnv.shapeH demoEnv.shapeW 0).1
      (decodeAction demoEnv.shapeH demoEnv.shapeW 0).2.1
      (decodeAction demoEnv.shapeH demoEnv.shapeW 0).2.2 = 0 ∧
     ∀ c x y, ((step demoEnv 0).2.1 c x y ≠ demoEnv.image c x y ↔
       ((c, x, y) = decodeAction demoEnv.shapeH demoEnv.shapeW 0 ∧
        demoEnv.image c x y ≠ 0))) :=
  ⟨by decide, stepPerturbsAtMostDecodedPixel demoEnv 0 (by decide)⟩

/-- C5: starting an episode with a zero counter and budget `B ≥ 1`, every
call among the first `B - 1` returns `done = false`, the `B`-th call returns
`done = true`, and immediately after that call the step counter is 0. -/
theorem stepCounterLifecycle (s : EnvState) (acts : ℕ → ℕ)
    (hc : s.current_attack_count = 0) (hb : 1 ≤ s.attack_budget) :
    (∀ i, i + 1 < s.attack_budget →
      (step (runSteps s acts i) (acts i)).2.2.2 = false) ∧
    (step (runSteps s acts (s.attack_budget - 1))
      (acts (s.attack_budget - 1))).2.2.2 = true ∧
    (runSteps s acts s.attack_budget).current_attack_count = 0 := by
  refine ⟨?_, ?_, ?_⟩
  · intro i hi
    rw [step_done_flag, runSteps_attack_budget, runSteps_count s acts hc i (by omega)]
    simp
    omega
  · rw [step_done_flag, runSteps_attack_budget,
      runSteps_count s acts hc (s.attack_budget - 1) (by omega)]
    simp
    omega
  · have hB : s.attack_budget - 1 + 1 = s.attack_budget := by omega
    conv_lhs => rw [← hB]
    rw [runSteps, step_fst_count, runSteps_attack_budget,
      runSteps_count s acts hc (s.attack_budget - 1) (by omega), if_pos (by omega)]

/-- Witness for C5 at the concrete budget-2 environment `demoEnvB2` with the
constant action sequence 0: the first call is not done, the second is, and
the counter is 0 afterwards. -/
theorem stepCounterLifecycleWitness :
    demoEnvB2.current_attack_count = 0 ∧ 1 ≤ demoEnvB2.attack_budget ∧
    (step (runSteps demoEnvB2 (fun _ => 0) 0) ((fun _ => 0) 0)).2.2.2 = false ∧
    (step (runSteps demoEnvB2 (fun _ => 0) (demoEnvB2.attack_budget - 1))
      ((fun _ => 0) (demoEnvB2.attack_budget - 1))).2.2.2 = true ∧
    (runSteps demoEnvB2 (fun _ => 0) demoEnvB2.attack_budget).current_attack_count = 0 :=
  ⟨rfl, by decide,
   (stepCounterLifecycle demoEnvB2 (fun _ => 0) rfl (by decide)).1 0 (by decide),
   (stepCounterLifecycle demoEnvB2 (fun _ => 0) rfl (by decide)).2.1,
   (stepCounterLifecycle demoEnvB2 (fun _ => 0) rfl (by decide)).2.2⟩

/-- C7: for a nonempty underlying dataset, every call to the endless
loader's `next()` — at any cursor position, hence any number of consecutive
draws — succeeds with an (image, label) pair; for an empty dataset the first
call fails with an `EmptyDatasetError`. -/
theorem endlessNextTotal (data : List (PerturbImage × ℕ)) :
    (0 < data.length →
      ∀ cursor, ∃ pair cursor', endlessNext data cursor = Except.ok (pair, cursor')) ∧
    (data.length = 0 → endlessNext data 0 = Except.error ⟨⟩) := by
  constructor
  · intro h cursor
    unfold endlessNext
    rw [dif_neg (by omega)]
    exact ⟨_, _, rfl⟩
  · intro h
    unfold endlessNext
    rw [dif_pos h]

/-- Witness for C7: a singleton dataset succeeds at cursor 7, the empty
dataset fails on the first call. -/
theorem endlessNextTotalWitness :
    (0 < ([(constImage 0, 3)] : List (PerturbImage × ℕ)).length ∧
      ∃ pair cursor', endlessNext [(constImage 0, 3)] 7 = Except.ok (pair, cursor')) ∧
    (([] : List (PerturbImage × ℕ)).length = 0 ∧
      endlessNext ([] : List (PerturbImage × ℕ)) 0 = Except.error ⟨⟩) :=
  ⟨⟨by decide, (endlessNextTotal [(constImage 0, 3)]).1 (by decide) 7⟩,
   ⟨rfl, (endlessNextTotal []).2 rfl⟩⟩

/-- C10: `step` never validates its action.  For every integer action
`a ≥ C * H * W` the pixel write raises an out-of-bounds indexing error
(result `none`), but only after the step counter has been incremented — the
failed call leaves the environment exactly as before except for the counter.
For every negative action whose decoded channel lies in `[-C, 0)` — that is,
`-C * H * W ≤ a < 0` — the call does not raise at all and instead zeroes the
pixel selected by pytorch negative-index wraparound (channel `channel + C`). -/
theorem stepNoActionValidation (s : EnvState)
    (_hC : 0 < s.shapeC) (hH : 0 < s.shapeH) (hW : 0 < s.shapeW) :
    (∀ a : ℤ, (total_actions s : ℤ) ≤ a →
        stepZ s a =
          ({ s with current_attack_count := s.current_attack_count + 1 }, none)) ∧
    (∀ a : ℤ, -(total_actions s : ℤ) ≤ a → a < 0 →
        ((stepZ s a).2.isSome = true ∧
         (stepZ s a).1.image = setPixelZero s.image
           (Int.fdiv a ((s.shapeH : ℤ) * (s.shapeW : ℤ)) + (s.shapeC : ℤ)).toNat
           (Int.fdiv (Int.fmod a ((s.shapeH : ℤ) * (s.shapeW : ℤ))) (s.shapeW : ℤ)).toNat
           (Int.fmod (Int.fmod a ((s.shapeH : ℤ) * (s.shapeW : ℤ))) (s.shapeW : ℤ)).toNat)) := by
  have hWZ : (0 : ℤ) < (s.shapeW : ℤ) := by exact_mod_cast hW
  have hm : (0 : ℤ) < (s.shapeH : ℤ) * (s.shapeW : ℤ) := by
    have := Nat.mul_pos hH hW
    exact_mod_cast this
  have htot : (total_actions s : ℤ) = (s.shapeC : ℤ) * ((s.shapeH : ℤ) * (s.shapeW : ℤ)) := by
    unfold total_actions
    push_cast
    ring
  -- the row and column indices computed from any integer action are in bounds
  have hrowcol : ∀ a : ℤ,
      torchIndex s.shapeH (Int.fdiv (Int.fmod a ((s.shapeH : ℤ) * (s.shapeW : ℤ))) (s.shapeW : ℤ)) =
        some (Int.fdiv (Int.fmod a ((s.shapeH : ℤ) * (s.shapeW : ℤ))) (s.shapeW : ℤ)).toNat ∧
      torchIndex s.shapeW (Int.fmod (Int.fmod a ((s.shapeH : ℤ) * (s.shapeW : ℤ))) (s.shapeW : ℤ)) =
        some (Int.fmod (Int.fmod a ((s.shapeH : ℤ) * (s.shapeW : ℤ))) (s.shapeW : ℤ)).toNat := by
    intro a
    have htemp0 : 0 ≤ Int.fmod a ((s.shapeH : ℤ) * (s.shapeW : ℤ)) := by
      rw [Int.fmod_eq_emod _ hm.le]
      exact Int.emod_nonneg a (ne_of_gt hm)
    have htempm : Int.fmod a ((s.shapeH : ℤ) * (s.shapeW : ℤ)) <
        (s.shapeH : ℤ) * (s.shapeW : ℤ) := by
      rw [Int.fmod_eq_emod _ hm.le]
      exact Int.emod_lt_of_pos a hm
    constructor
    · unfold torchIndex
      rw [if_pos]
      refine ⟨?_, ?_⟩
      · rw [Int.fdiv_eq_ediv _ hWZ.le]
        exact Int.ediv_nonneg htemp0 hWZ.le
      · rw [Int.fdiv_eq_ediv _ hWZ.le, Int.ediv_lt_iff_lt_mul hWZ]
        calc Int.fmod a ((s.shapeH : ℤ) * (s.shapeW : ℤ)) <
            (s.shapeH : ℤ) * (s.shapeW : ℤ) := htempm
        _ = (s.shapeH : ℤ) * (s.shapeW : ℤ) := rfl
    · unfold torchIndex
      rw [if_pos]
      refine ⟨?_, ?_⟩
      · rw [Int.fmod_eq_emod _ hWZ.le]
        exact Int.emod_nonneg _ (ne_of_gt hWZ)
      · rw [Int.fmod_eq_emod _ hWZ.le]
        exact Int.emod_lt_of_pos _ hWZ
  constructor
  · intro a ha
    have hch : (s.shapeC : ℤ) ≤ Int.fdiv a ((s.shapeH : ℤ) * (s.shapeW : ℤ)) := by
      rw [Int.fdiv_eq_ediv _ hm.le, Int.le_ediv_iff_mul_le hm]
      rw [htot] at ha
      exact ha
    have h1 : torchIndex s.shapeC (Int.fdiv a ((s.shapeH : ℤ) * (s.shapeW : ℤ))) = none := by
      unfold torchIndex
      rw [if_neg (by omega), if_neg (by omega)]
    obtain ⟨h2, h3⟩ := hrowcol a
    unfold stepZ
    dsimp only
    rw [h1, h2, h3]
  · intro a ha0 ha1
    have hch_lo : -(s.shapeC : ℤ) ≤ Int.fdiv a ((s.shapeH : ℤ) * (s.shapeW : ℤ)) := by
      rw [Int.fdiv_eq_ediv _ hm.le, Int.le_ediv_iff_mul_le hm]
      rw [htot] at ha0
      calc -(s.shapeC : ℤ) * ((s.shapeH : ℤ) * (s.shapeW : ℤ)) =
          -((s.shapeC : ℤ) * ((s.shapeH : ℤ) * (s.shapeW : ℤ))) := by ring
      _ ≤ a := ha0
    have hch_hi : Int.fdiv a ((s.shapeH : ℤ) * (s.shapeW : ℤ)) < 0 := by
      rw [Int.fdiv_eq_ediv _ hm.le]
      exact Int.ediv_neg' ha1 hm
    have h1 : torchIndex s.shapeC (Int.fdiv a ((s.shapeH : ℤ) * (s.shapeW : ℤ))) =
        some (Int.fdiv a ((s.shapeH : ℤ) * (s.shapeW : ℤ)) + (s.shapeC : ℤ)).toNat := by
      unfold torchIndex
      rw [if_neg (by omega), if_pos ⟨hch_lo, hch_hi⟩]
    obtain ⟨h2, h3⟩ := hrowcol a
    refine ⟨?_, ?_⟩
    · unfold stepZ
      dsimp only
      rw [h1, h2, h3]
      rfl
    · unfold stepZ
      dsimp only
      rw [h1, h2, h3]

/-- Witness for C10 at the concrete environment `demoEnvB2` (1 × 1 × 1
images, so one valid action): action 9 is out of range and fails with only
the counter incremented; action -1 wraps around to channel 0 and succeeds. -/
theorem stepNoActionValidationWitness :
    (0 < demoEnvB2.shapeC ∧ 0 < demoEnvB2.shapeH ∧ 0 < demoEnvB2.shapeW) ∧
    stepZ demoEnvB2 9 =
      ({ demoEnvB2 with
          current_attack_count := demoEnvB2.current_attack_count + 1 }, none) ∧
    ((stepZ demoEnvB2 (-1)).2.isSome = true ∧
     (stepZ demoEnvB2 (-1)).1.image = setPixelZero demoEnvB2.image
       (Int.fdiv (-1) ((demoEnvB2.shapeH : ℤ) * (demoEnvB2.shapeW : ℤ)) +
         (demoEnvB2.shapeC : ℤ)).toNat
       (Int.fdiv (Int.fmod (-1) ((demoEnvB2.shapeH : ℤ) * (demoEnvB2.shapeW : ℤ)))
         (demoEnvB2.shapeW : ℤ)).toNat
       (Int.fmod (Int.fmod (-1) ((demoEnvB2.shapeH : ℤ) * (demoEnvB2.shapeW : ℤ)))
         (demoEnvB2.shapeW : ℤ)).toNat) :=
  ⟨⟨by decide, by decide, by decide⟩,
   (stepNoActionValidation demoEnvB2 (by decide) (by decide) (by decide)).1 9 (by decide),
   (stepNoActionValidation demoEnvB2 (by decide) (by decide) (by decide)).2 (-1)
     (by decide) (by decide)⟩

end AdvRL
